import Mathlib

/-!
# Verification of the SQL-to-MongoDB compilation layer (djongo/sql2mongo/query.py)

A shallow embedding of the core logic of `djongo/sql2mongo/query.py`:
the statement dispatcher (`Query`), the select compiler (`SelectQuery`),
the insert compiler (`InsertQuery`) and the drop handler (`Query._drop`),
together with theorems settling the behavioural claims about them.

External collaborators (sqlparse, the clause converters, pymongo)
are modelled at their interface: a converter contributes the flag or
fragment the core actually inspects, and the store driver is modelled
by an effect trace plus the error kinds the core distinguishes
(`OperationFailure` with a native detail payload vs. other
`PyMongoError` kinds vs. everything else).
-/

namespace Djongo

/-- A SQL / BSON scalar value, as the insert compiler sees it.  The
`DEFAULT` constructor embeds the sentinel object `InsertQuery.DEFAULT`
(`query.py` line 346). -/
inductive Value where
  | int (n : Int)
  | str (s : String)
  | null
  | DEFAULT
  deriving DecidableEq, Repr

/-! ## Parameter-marker rewriting (`Query.__init__` / `Query._param_index`)

`Query.__init__` runs `re.sub(r'%s', self._param_index, sql)` with
`_params_index_count` starting at `-1`; `_param_index` increments the
counter once per match (left to right, non-overlapping, exactly how
`re.sub` scans) and returns `'%({})s'.format(count)`, so the first
marker becomes `%(0)s`, the second `%(1)s`, and so on.  The rewrite
happens in `__init__`, before `self.parse()` hands the text to the
external parser.  We embed the scan over the character list of the
SQL text. -/

/-- The keyed parameter reference `%(k)s` substituted for the `k`-th
positional marker (`Query._param_index`, lines 839-841). -/
def keyRef (k : Nat) : List Char :=
  '%' :: '(' :: (Nat.toDigits 10 k ++ [')', 's'])

/-- Left-to-right, non-overlapping replacement of each literal `%s`
marker by the next keyed reference, threading the marker counter:
the embedding of `re.sub(r'%s', self._param_index, sql)`
(`Query.__init__`, line 787). -/
def paramSub : List Char → Nat → List Char
  | [], _ => []
  | [c], _ => [c]
  | c1 :: c2 :: rest, k =>
    if c1 = '%' ∧ c2 = 's' then keyRef k ++ paramSub rest (k + 1)
    else c1 :: paramSub (c2 :: rest) k

/-- The SQL text stored in `self._sql`: the input text with every
positional marker rewritten, the counter starting at zero. -/
def querySqlRewrite (sql : List Char) : List Char :=
  paramSub sql 0

/-- Decides whether the character list contains the two-character
positional marker `%s`. -/
def hasMarker : List Char → Bool
  | [] => false
  | [_] => false
  | c1 :: c2 :: rest => (decide (c1 = '%') && decide (c2 = 's')) || hasMarker (c2 :: rest)

/-- A SQL text presented as `n + 1` marker-free segments joined by `n`
positional markers `%s`. -/
def withMarkers : List (List Char) → List Char
  | [] => []
  | [s] => s
  | s :: r :: rest => s ++ '%' :: 's' :: withMarkers (r :: rest)

/-- The same segments joined by the keyed references
`%(k)s`, `%(k+1)s`, ... in left-to-right order. -/
def withKeys : List (List Char) → Nat → List Char
  | [], _ => []
  | [s], _ => s
  | s :: r :: rest, k => s ++ (keyRef k ++ withKeys (r :: rest) (k + 1))

theorem paramSub_cons₂ (c1 c2 : Char) (rest : List Char) (k : Nat)
    (h : ¬(c1 = '%' ∧ c2 = 's')) :
    paramSub (c1 :: c2 :: rest) k = c1 :: paramSub (c2 :: rest) k := by
  simp [paramSub, h]

theorem paramSub_marker (rest : List Char) (k : Nat) :
    paramSub ('%' :: 's' :: rest) k = keyRef k ++ paramSub rest (k + 1) := by
  simp [paramSub]

theorem hasMarker_cons₂ (c1 c2 : Char) (rest : List Char)
    (h : hasMarker (c1 :: c2 :: rest) = false) :
    ¬(c1 = '%' ∧ c2 = 's') ∧ hasMarker (c2 :: rest) = false := by
  simp only [hasMarker, Bool.or_eq_false_iff, Bool.and_eq_false_iff,
    decide_eq_false_iff_not] at h
  refine ⟨?_, h.2⟩
  intro hc
  rcases h.1 with h1 | h2
  · exact h1 hc.1
  · exact h2 hc.2

/-- A marker-free text is copied unchanged by the substitution scan. -/
theorem paramSub_no_marker :
    (s : List Char) → (k : Nat) → hasMarker s = false → paramSub s k = s
  | [], _, _ => rfl
  | [_], _, _ => rfl
  | c1 :: c2 :: rest, k, h => by
    obtain ⟨hm, htail⟩ := hasMarker_cons₂ c1 c2 rest h
    rw [paramSub_cons₂ c1 c2 rest k hm, paramSub_no_marker (c2 :: rest) k htail]

/-- The scan distributes over an appended tail when the prefix is
marker-free and the tail does not start with `s` (so no marker
straddles the seam). -/
theorem paramSub_append :
    (s : List Char) → (t : List Char) → (k : Nat) → hasMarker s = false →
    t.head? ≠ some 's' → paramSub (s ++ t) k = s ++ paramSub t k
  | [], _, _, _, _ => rfl
  | [c], t, k, _, ht => by
    match t with
    | [] => rfl
    | c2 :: r =>
      have hm : ¬(c = '%' ∧ c2 = 's') := by
        intro hc
        exact ht (by simp [hc.2])
      simpa using paramSub_cons₂ c c2 r k hm
  | c1 :: c2 :: rest, t, k, h, ht => by
    obtain ⟨hm, htail⟩ := hasMarker_cons₂ c1 c2 rest h
    have : paramSub (c1 :: c2 :: (rest ++ t)) k = c1 :: paramSub (c2 :: (rest ++ t)) k :=
      paramSub_cons₂ c1 c2 (rest ++ t) k hm
    simp only [List.cons_append, this]
    rw [show c2 :: (rest ++ t) = (c2 :: rest) ++ t from rfl,
      paramSub_append (c2 :: rest) t k htail ht]
    simp

/-- Joining marker-free segments by `%s` markers and scanning yields
the same segments joined by consecutive keyed references. -/
theorem paramSub_withMarkers :
    (segs : List (List Char)) → (k : Nat) → (∀ s ∈ segs, hasMarker s = false) →
    paramSub (withMarkers segs) k = withKeys segs k
  | [], _, _ => rfl
  | [s], k, h => paramSub_no_marker s k (h s (by simp))
  | s :: r :: rest, k, h => by
    have hs : hasMarker s = false := h s (by simp)
    have hrest : ∀ x ∈ r :: rest, hasMarker x = false := by
      intro x hx
      exact h x (by simp [hx])
    rw [withMarkers, withKeys,
      paramSub_append s ('%' :: 's' :: withMarkers (r :: rest)) k hs (by simp),
      paramSub_marker, paramSub_withMarkers (r :: rest) (k + 1) hrest]

/-- C4: for every SQL text handed to the dispatcher — presented as its
marker-free segments joined by positional `%s` markers — the stored
text `self._sql` (built in `Query.__init__`, before the external
parser sees it) replaces each marker with a keyed reference `%(k)s`,
the key being a zero-based counter incremented once per marker in
left-to-right order, so the k-th marker refers to index k of the flat
parameter list. -/
theorem query_param_markers_zero_indexed (segs : List (List Char))
    (h : ∀ s ∈ segs, hasMarker s = false) :
    querySqlRewrite (withMarkers segs) = withKeys segs 0 :=
  paramSub_withMarkers segs 0 h

/-- Witness for C4 at the concrete text `a = %s AND b = %s`: it is
rewritten to `a = %(0)s AND b = %(1)s`. -/
theorem query_param_markers_zero_indexed_witness :
    (∀ s ∈ [("a = ").data, (" AND b = ").data, ([] : List Char)], hasMarker s = false) ∧
    querySqlRewrite (withMarkers [("a = ").data, (" AND b = ").data, []]) =
      withKeys [("a = ").data, (" AND b = ").data, []] 0 ∧
    withKeys [("a = ").data, (" AND b = ").data, []] 0 = ("a = %(0)s AND b = %(1)s").data :=
  ⟨by decide,
   query_param_markers_zero_indexed [("a = ").data, (" AND b = ").data, []] (by decide),
   by decide⟩

/-! ## The select compiler (`SelectQuery`)

`SelectQuery.parse` (lines 127-164) walks the top-level tokens of the
statement in source order and stores one converter per clause into a
named attribute (`self.limit`, `self.order`, ..., appending joins to
`self.joins`); `DISTINCT` is recognised inside the external
`ColumnSelectConverter`, which also records whether the column list
contains an aggregate function (`has_func`) or a constant
(`return_const`), and the external `WhereConverter` installs
`self.nested_query` when the filter contains a nested subquery.  We
model each converter by the flag/fragment the core inspects, and its
pipeline-stage output (`to_mongo` after the class swap) by a tagged
stage; a join converter's stage block is tagged with the join's
source position identity. -/

/-- One compiled aggregation-pipeline stage, tagged by the converter
that produced it (`to_mongo` of the corresponding Agg converter). A
join stage carries the identity of the join clause it came from. -/
inductive Stage where
  | join (id : Nat)
  | nested
  | matchWhere
  | group
  | having
  | distinctStage
  | sort
  | skip
  | limit
  | project
  deriving DecidableEq, Repr

/-- The converter attributes of a `SelectQuery` after parsing: for each
clause the truthiness of the stored converter (Python `if self.x:`),
`joins` keeping the source-order identities of the join clauses, plus
the two flags of the column-select converter that
`_needs_aggregation` inspects. -/
@[ext]
structure SelectState where
  joins : List Nat
  nestedQuery : Bool
  whereC : Bool
  groupby : Bool
  having : Bool
  distinct : Bool
  order : Bool
  offset : Bool
  limit : Bool
  selectedColumns : Bool
  returnConst : Bool
  hasFunc : Bool
  deriving DecidableEq, Repr

/-- The state of a freshly constructed `SelectQuery.__init__`
(lines 111-125): every converter attribute is `None` / `[]`. -/
def initSelect : SelectState :=
  ⟨[], false, false, false, false, false, false, false, false, false, false, false⟩

/-- One top-level clause of the SELECT statement as the parse loop
encounters it, carrying the data the converter it instantiates would
contribute: the column-select clause carries the `has_func` /
`return_const` flags and whether a `DISTINCT` converter is installed,
a join clause carries its identity, a `WHERE` clause carries whether
the nested-subquery converter is installed. -/
inductive Clause where
  | selectC (hasFunc returnConst distinct : Bool)
  | fromC
  | limitC
  | orderC
  | offsetC
  | joinC (id : Nat)
  | groupC
  | havingC
  | whereClause (nested : Bool)
  deriving DecidableEq, Repr

/-- One iteration of the keyword dispatch loop of `SelectQuery.parse`
(lines 130-164): each recognised clause stores its converter into the
corresponding attribute, joins are appended in source order. -/
def parseStep (s : SelectState) : Clause → SelectState
  | .selectC f c d => { s with selectedColumns := true, hasFunc := f, returnConst := c, distinct := d }
  | .fromC => s
  | .limitC => { s with limit := true }
  | .orderC => { s with order := true }
  | .offsetC => { s with offset := true }
  | .joinC i => { s with joins := s.joins ++ [i] }
  | .groupC => { s with groupby := true }
  | .havingC => { s with having := true }
  | .whereClause n => { s with whereC := true, nestedQuery := n }

/-- `SelectQuery.parse`: fold the dispatch loop over the top-level
clauses in the order they appear in the source text. -/
def parseSelect (cs : List Clause) : SelectState :=
  cs.foldl parseStep initSelect

/-- `SelectQuery._needs_aggregation` (lines 194-202), in the source's
evaluation order. -/
def needsAggregation (s : SelectState) : Bool :=
  s.nestedQuery || !s.joins.isEmpty || s.distinct || s.groupby || s.returnConst || s.hasFunc

/-- `SelectQuery._needs_column_selection` (lines 243-244):
`not (distinct or groupby) and selected_columns`. -/
def needsColumnSelection (s : SelectState) : Bool :=
  !(s.distinct || s.groupby) && s.selectedColumns

/-- Emits the stage of a converter when it is present. -/
def optStage (b : Bool) (st : Stage) : List Stage :=
  if b then [st] else []

/-- `SelectQuery._make_pipeline` (lines 204-241): the pipeline is
built by appending, in this fixed program order: one stage block per
join (source order), then the nested-subquery stage, the `WHERE`
match stage, the group stage, the having stage, the distinct stage,
the sort stage, the skip stage, the limit stage, and finally the
projection stage when `_needs_column_selection()` holds. -/
def makePipeline (s : SelectState) : List Stage :=
  let p := s.joins.map Stage.join
  let p := p ++ optStage s.nestedQuery .nested
  let p := p ++ optStage s.whereC .matchWhere
  let p := p ++ optStage s.groupby .group
  let p := p ++ optStage s.having .having
  let p := p ++ optStage s.distinct .distinctStage
  let p := p ++ optStage s.order .sort
  let p := p ++ optStage s.offset .skip
  let p := p ++ optStage s.limit .limit
  p ++ optStage (needsColumnSelection s) .project

/-- The keyword arguments of the simple filtered-read call
(`find(**kwargs)`): each present converter contributes its own
keyword (`filter` from `WHERE`, `projection` from the column list,
`limit`, `sort` from `ORDER BY`, `skip` from `OFFSET`) — the keys are
distinct, so `kwargs.update` merges them independently. -/
@[ext]
structure FindKwargs where
  filter : Bool
  projection : Bool
  sort : Bool
  skip : Bool
  limit : Bool
  deriving DecidableEq, Repr

/-- The store call issued by `SelectQuery._get_cursor`. -/
inductive CursorCall where
  | aggregate (pipeline : List Stage)
  | find (kwargs : FindKwargs)
  deriving DecidableEq, Repr

/-- `SelectQuery._get_cursor` (lines 246-271): aggregation when
`_needs_aggregation()`, otherwise a single `find` call whose kwargs
are assembled from the present converters. -/
def getCursor (s : SelectState) : CursorCall :=
  if needsAggregation s then .aggregate (makePipeline s)
  else .find { filter := s.whereC, projection := s.selectedColumns,
               sort := s.order, skip := s.offset, limit := s.limit }

/-- C1: the select compiler uses the aggregation-pipeline path exactly
when the statement has at least one join, or a nested/correlated
subquery, or a DISTINCT clause, or a GROUP BY clause, or a selected
column list containing a constant or an aggregate function; in every
other case it issues a single filtered-read call whose filter,
projection, sort, skip and limit are passed as independent
parameters taken from the corresponding converters. -/
theorem select_mode_decision (s : SelectState) :
    getCursor s =
      if !s.joins.isEmpty || s.nestedQuery || s.distinct || s.groupby
          || s.returnConst || s.hasFunc then
        .aggregate (makePipeline s)
      else
        .find { filter := s.whereC, projection := s.selectedColumns,
                sort := s.order, skip := s.offset, limit := s.limit } := by
  have : needsAggregation s =
      (!s.joins.isEmpty || s.nestedQuery || s.distinct || s.groupby
        || s.returnConst || s.hasFunc) := by
    simp only [needsAggregation]
    cases s.nestedQuery <;> cases s.joins.isEmpty <;> simp
  rw [getCursor, this]

/-! ### Characterising `parseSelect` independently of clause order -/

/-- Recognises the clause that stores the `LIMIT` converter. -/
def isLimitC : Clause → Bool
  | .limitC => true
  | _ => false

/-- Recognises the clause that stores the `ORDER BY` converter. -/
def isOrderC : Clause → Bool
  | .orderC => true
  | _ => false

/-- Recognises the clause that stores the `OFFSET` converter. -/
def isOffsetC : Clause → Bool
  | .offsetC => true
  | _ => false

/-- Recognises the clause that stores the `GROUP BY` converter. -/
def isGroupC : Clause → Bool
  | .groupC => true
  | _ => false

/-- Recognises the clause that stores the `HAVING` converter. -/
def isHavingC : Clause → Bool
  | .havingC => true
  | _ => false

/-- Recognises the column-select clause. -/
def isSelectC : Clause → Bool
  | .selectC _ _ _ => true
  | _ => false

/-- Recognises the `WHERE` clause. -/
def isWhereCl : Clause → Bool
  | .whereClause _ => true
  | _ => false

/-- Extracts a join clause's identity. -/
def joinId : Clause → Option Nat
  | .joinC i => some i
  | _ => none

/-- Extracts the flags carried by the column-select clause. -/
def selData : Clause → Option (Bool × Bool × Bool)
  | .selectC f c d => some (f, c, d)
  | _ => none

/-- Extracts the nested-subquery flag carried by the `WHERE` clause. -/
def whereData : Clause → Option Bool
  | .whereClause n => some n
  | _ => none

/-- The join identities of a clause list, in source order. -/
def joinsOf (cs : List Clause) : List Nat :=
  cs.filterMap joinId

theorem parse_limit (cs : List Clause) (s : SelectState) :
    (cs.foldl parseStep s).limit = (s.limit || cs.any isLimitC) := by
  induction cs generalizing s with
  | nil => simp
  | cons c cs ih =>
    cases c <;> simp [parseStep, isLimitC, ih, Bool.or_assoc]

theorem parse_order (cs : List Clause) (s : SelectState) :
    (cs.foldl parseStep s).order = (s.order || cs.any isOrderC) := by
  induction cs generalizing s with
  | nil => simp
  | cons c cs ih =>
    cases c <;> simp [parseStep, isOrderC, ih, Bool.or_assoc]

theorem parse_offset (cs : List Clause) (s : SelectState) :
    (cs.foldl parseStep s).offset = (s.offset || cs.any isOffsetC) := by
  induction cs generalizing s with
  | nil => simp
  | cons c cs ih =>
    cases c <;> simp [parseStep, isOffsetC, ih, Bool.or_assoc]

theorem parse_groupby (cs : List Clause) (s : SelectState) :
    (cs.foldl parseStep s).groupby = (s.groupby || cs.any isGroupC) := by
  induction cs generalizing s with
  | nil => simp
  | cons c cs ih =>
    cases c <;> simp [parseStep, isGroupC, ih, Bool.or_assoc]

theorem parse_having (cs : List Clause) (s : SelectState) :
    (cs.foldl parseStep s).having = (s.having || cs.any isHavingC) := by
  induction cs generalizing s with
  | nil => simp
  | cons c cs ih =>
    cases c <;> simp [parseStep, isHavingC, ih, Bool.or_assoc]

theorem parse_selectedColumns (cs : List Clause) (s : SelectState) :
    (cs.foldl parseStep s).selectedColumns = (s.selectedColumns || cs.any isSelectC) := by
  induction cs generalizing s with
  | nil => simp
  | cons c cs ih =>
    cases c <;> simp [parseStep, isSelectC, ih, Bool.or_assoc]

theorem parse_whereC (cs : List Clause) (s : SelectState) :
    (cs.foldl parseStep s).whereC = (s.whereC || cs.any isWhereCl) := by
  induction cs generalizing s with
  | nil => simp
  | cons c cs ih =>
    cases c <;> simp [parseStep, isWhereCl, ih, Bool.or_assoc]

theorem parse_joins (cs : List Clause) (s : SelectState) :
    (cs.foldl parseStep s).joins = s.joins ++ joinsOf cs := by
  induction cs generalizing s with
  | nil => simp [joinsOf]
  | cons c cs ih =>
    cases c <;> simp [parseStep, joinsOf, List.filterMap_cons, joinId, ih]

theorem parse_hasFunc (cs : List Clause) (s : SelectState) :
    (cs.foldl parseStep s).hasFunc =
      (cs.filterMap selData).foldl (fun _ d => d.1) s.hasFunc := by
  induction cs generalizing s with
  | nil => rfl
  | cons c cs ih =>
    cases c <;> simp [parseStep, List.filterMap_cons, selData, ih]

theorem parse_returnConst (cs : List Clause) (s : SelectState) :
    (cs.foldl parseStep s).returnConst =
      (cs.filterMap selData).foldl (fun _ d => d.2.1) s.returnConst := by
  induction cs generalizing s with
  | nil => rfl
  | cons c cs ih =>
    cases c <;> simp [parseStep, List.filterMap_cons, selData, ih]

theorem parse_distinct (cs : List Clause) (s : SelectState) :
    (cs.foldl parseStep s).distinct =
      (cs.filterMap selData).foldl (fun _ d => d.2.2) s.distinct := by
  induction cs generalizing s with
  | nil => rfl
  | cons c cs ih =>
    cases c <;> simp [parseStep, List.filterMap_cons, selData, ih]

theorem parse_nestedQuery (cs : List Clause) (s : SelectState) :
    (cs.foldl parseStep s).nestedQuery =
      (cs.filterMap whereData).foldl (fun _ n => n) s.nestedQuery := by
  induction cs generalizing s with
  | nil => rfl
  | cons c cs ih =>
    cases c <;> simp [parseStep, List.filterMap_cons, whereData, ih]

/-- Two permuted lists of length at most one are equal. -/
theorem perm_eq_of_length_le_one {α : Type} {l₁ l₂ : List α}
    (h : l₁.Perm l₂) (hl : l₁.length ≤ 1) : l₁ = l₂ := by
  match l₁, hl with
  | [], _ => exact (List.perm_nil.mp h.symm).symm
  | [a], _ => exact (List.perm_singleton.mp h.symm).symm

/-- A permutation preserves `List.any`. -/
theorem perm_any {α : Type} {l₁ l₂ : List α} (h : l₁.Perm l₂) (p : α → Bool) :
    l₁.any p = l₂.any p := by
  cases hx : l₂.any p with
  | true =>
    rw [List.any_eq_true] at hx ⊢
    obtain ⟨x, hxl, hpx⟩ := hx
    exact ⟨x, h.mem_iff.mpr hxl, hpx⟩
  | false =>
    rw [List.any_eq_false] at hx ⊢
    intro x hxl
    exact hx x (h.mem_iff.mp hxl)

/-- Reordering the top-level clauses of a SELECT statement — keeping
the joins in the same relative order, with at most one column-select
and at most one `WHERE` clause — does not change the parsed compiler
state. -/
theorem parseSelect_perm_invariant (cs₁ cs₂ : List Clause)
    (hperm : cs₁.Perm cs₂)
    (hjoins : joinsOf cs₁ = joinsOf cs₂)
    (hsel : (cs₁.filterMap selData).length ≤ 1)
    (hwh : (cs₁.filterMap whereData).length ≤ 1) :
    parseSelect cs₁ = parseSelect cs₂ := by
  have hselEq : cs₁.filterMap selData = cs₂.filterMap selData :=
    perm_eq_of_length_le_one (hperm.filterMap _) hsel
  have hwhEq : cs₁.filterMap whereData = cs₂.filterMap whereData :=
    perm_eq_of_length_le_one (hperm.filterMap _) hwh
  unfold parseSelect
  ext
  · rw [parse_joins, parse_joins, hjoins]
  · rw [parse_nestedQuery, parse_nestedQuery, hwhEq]
  · rw [parse_whereC, parse_whereC, perm_any hperm isWhereCl]
  · rw [parse_groupby, parse_groupby, perm_any hperm isGroupC]
  · rw [parse_having, parse_having, perm_any hperm isHavingC]
  · rw [parse_distinct, parse_distinct, hselEq]
  · rw [parse_order, parse_order, perm_any hperm isOrderC]
  · rw [parse_offset, parse_offset, perm_any hperm isOffsetC]
  · rw [parse_limit, parse_limit, perm_any hperm isLimitC]
  · rw [parse_selectedColumns, parse_selectedColumns, perm_any hperm isSelectC]
  · rw [parse_returnConst, parse_returnConst, hselEq]
  · rw [parse_hasFunc, parse_hasFunc, hselEq]

/-- C2: the aggregation pipeline always lists its stages in the fixed
order: join stage blocks (one per JOIN clause, in source order), then
the nested-subquery stage, the WHERE match stage, the GROUP BY stage,
the HAVING stage, the distinct-elimination stage, the ORDER BY sort
stage, the OFFSET skip stage, the LIMIT stage, and the projection
stage, which is omitted exactly when a DISTINCT or GROUP BY clause is
present; and the compiled pipeline does not depend on the order the
clauses appeared in the source text (given the same join order and a
single column-select / WHERE clause). -/
theorem select_pipeline_stage_order (s : SelectState) (cs₁ cs₂ : List Clause)
    (hsel : s.selectedColumns = true)
    (hperm : cs₁.Perm cs₂)
    (hjoins : joinsOf cs₁ = joinsOf cs₂)
    (hu₁ : (cs₁.filterMap selData).length ≤ 1)
    (hu₂ : (cs₁.filterMap whereData).length ≤ 1) :
    makePipeline s =
      s.joins.map Stage.join
        ++ optStage s.nestedQuery .nested
        ++ optStage s.whereC .matchWhere
        ++ optStage s.groupby .group
        ++ optStage s.having .having
        ++ optStage s.distinct .distinctStage
        ++ optStage s.order .sort
        ++ optStage s.offset .skip
        ++ optStage s.limit .limit
        ++ (if s.distinct || s.groupby then [] else [Stage.project])
    ∧ makePipeline (parseSelect cs₁) = makePipeline (parseSelect cs₂) := by
  constructor
  · have : optStage (needsColumnSelection s) .project =
        (if s.distinct || s.groupby then [] else [Stage.project]) := by
      rw [needsColumnSelection, hsel]
      cases s.distinct <;> cases s.groupby <;> simp [optStage]
    rw [makePipeline, this]
  · rw [parseSelect_perm_invariant cs₁ cs₂ hperm hjoins hu₁ hu₂]

/-- Witness for C2: with `OFFSET` appearing before `ORDER BY` in the
source text, the compiled pipeline still sorts before skipping and
equals the pipeline of the conventional clause order. -/
theorem select_pipeline_stage_order_witness :
    (parseSelect [.selectC false false false, .fromC, .orderC, .offsetC]).selectedColumns = true ∧
    ([Clause.selectC false false false, .fromC, .orderC, .offsetC].Perm
      [.selectC false false false, .fromC, .offsetC, .orderC]) ∧
    joinsOf [.selectC false false false, .fromC, .orderC, .offsetC] =
      joinsOf [.selectC false false false, .fromC, .offsetC, .orderC] ∧
    ([Clause.selectC false false false, .fromC, .orderC, .offsetC].filterMap selData).length ≤ 1 ∧
    ([Clause.selectC false false false, .fromC, .orderC, .offsetC].filterMap whereData).length ≤ 1 ∧
    (makePipeline (parseSelect [.selectC false false false, .fromC, .orderC, .offsetC]) =
      (parseSelect [.selectC false false false, .fromC, .orderC, .offsetC]).joins.map Stage.join
        ++ optStage (parseSelect [.selectC false false false, .fromC, .orderC, .offsetC]).nestedQuery .nested
        ++ optStage (parseSelect [.selectC false false false, .fromC, .orderC, .offsetC]).whereC .matchWhere
        ++ optStage (parseSelect [.selectC false false false, .fromC, .orderC, .offsetC]).groupby .group
        ++ optStage (parseSelect [.selectC false false false, .fromC, .orderC, .offsetC]).having .having
        ++ optStage (parseSelect [.selectC false false false, .fromC, .orderC, .offsetC]).distinct .distinctStage
        ++ optStage (parseSelect [.selectC false false false, .fromC, .orderC, .offsetC]).order .sort
        ++ optStage (parseSelect [.selectC false false false, .fromC, .orderC, .offsetC]).offset .skip
        ++ optStage (parseSelect [.selectC false false false, .fromC, .orderC, .offsetC]).limit .limit
        ++ (if (parseSelect [.selectC false false false, .fromC, .orderC, .offsetC]).distinct
              || (parseSelect [.selectC false false false, .fromC, .orderC, .offsetC]).groupby then []
            else [Stage.project])
      ∧ makePipeline (parseSelect [.selectC false false false, .fromC, .orderC, .offsetC]) =
          makePipeline (parseSelect [.selectC false false false, .fromC, .offsetC, .orderC])) ∧
    makePipeline (parseSelect [.selectC false false false, .fromC, .offsetC, .orderC]) =
      [Stage.sort, Stage.skip, Stage.project] :=
  ⟨by decide, by decide, by decide, by decide, by decide,
   select_pipeline_stage_order
     (parseSelect [.selectC false false false, .fromC, .orderC, .offsetC])
     [.selectC false false false, .fromC, .orderC, .offsetC]
     [.selectC false false false, .fromC, .offsetC, .orderC]
     (by decide) (by decide) (by decide) (by decide) (by decide),
   by decide⟩

/-! ## The insert compiler (`InsertQuery`, lines 345-442)

`InsertQuery.parse` collects the target table, the column list
(`self._cols`) and one value tuple per row (`self._vals`), resolving
each placeholder from the parameter list and mapping an explicit
`DEFAULT` keyword to the sentinel `self.DEFAULT`.  `execute`
(lines 402-436) first runs a single
`find_one_and_update({'name': table, 'auto': {'$exists': True}},
{'$inc': {'auto.seq': num}}, return_document=AFTER)` on the
`__schema__` metadata collection — one atomic read-modify-write — and
then builds one document per row.  A document is a Python dict; we
embed it as a lookup function updated key by key, which agrees with
dict reads. -/

/-- A document under construction: field name to value. -/
abbrev InsDoc : Type := String → Option Value

/-- Writes one key of the document (`ins[fld] = v`). -/
def dictSet (d : InsDoc) (k : String) (v : Value) : InsDoc :=
  fun k2 => if k2 = k then some v else d k2

/-- The empty document (`ins = {}`). -/
def emptyDoc : InsDoc := fun _ => none

/-- The autoincrement part of a table's `__schema__` metadata
document: the sequence counter `auto.seq` and the fed field names
`auto.field_names`. -/
@[ext]
structure AutoMeta where
  seq : Int
  field_names : List String
  deriving DecidableEq, Repr

/-- The caller-visible last-row id recorded in
`self._result_ref.last_row_id` (lines 432-435). -/
inductive LastRowId where
  | seqVal (n : Int)
  | storeGenerated
  deriving DecidableEq, Repr

/-- The single atomic read-modify-write on the metadata document
(`find_one_and_update` with `$inc` on `auto.seq` and
`ReturnDocument.AFTER`, lines 406-415): when the table has an `auto`
entry the counter is incremented by `n` and the post-increment
document is both stored and returned; otherwise nothing matches and
`None` is returned.  Returns (new stored metadata, returned
document). -/
def findOneAndUpdateIncSeq (meta : Option AutoMeta) (n : Int) :
    Option AutoMeta × Option AutoMeta :=
  match meta with
  | none => (none, none)
  | some a =>
    let a2 : AutoMeta := { a with seq := a.seq + n }
    (some a2, some a2)

/-- Builds the document for row `i` (zero-based) of the batch
(lines 417-429): first every autoincrement field name is set to
`auto['auto']['seq'] - num + i + 1` (with `seq` the post-increment
value), then each (column, value) pair of the row is written, except
that a pair whose column is an autoincrement field and whose value is
the `DEFAULT` sentinel is skipped (`continue`), leaving the sequence
value in place. -/
def buildRowDoc (auto : Option AutoMeta) (num : Int) (i : Nat)
    (cols : List String) (val : List Value) : InsDoc :=
  let ins : InsDoc :=
    match auto with
    | some a => a.field_names.foldl
        (fun d name => dictSet d name (.int (a.seq - num + (i : Int) + 1))) emptyDoc
    | none => emptyDoc
  (cols.zip val).foldl
    (fun d fv =>
      match auto with
      | some a =>
        if a.field_names.contains fv.1 && fv.2 == Value.DEFAULT then d
        else dictSet d fv.1 fv.2
      | none => dictSet d fv.1 fv.2)
    ins

/-- The outcome of `InsertQuery.execute`: the updated metadata
document, the batch handed to `insert_many` (one document per row, in
insertion order), and the recorded last-row id. -/
structure InsertOutcome where
  newMeta : Option AutoMeta
  docs : List InsDoc
  lastRowId : LastRowId

/-- `InsertQuery.execute` (lines 402-436). -/
def insertExecute (meta : Option AutoMeta) (cols : List String)
    (vals : List (List Value)) : InsertOutcome :=
  let num : Int := vals.length
  let res := findOneAndUpdateIncSeq meta num
  let docs := vals.enum.map (fun iv => buildRowDoc res.2 num iv.1 cols iv.2)
  { newMeta := res.1
    docs := docs
    lastRowId :=
      match res.2 with
      | some a => .seqVal a.seq
      | none => .storeGenerated }

theorem dictSet_self (d : InsDoc) (k : String) (v : Value) :
    dictSet d k v k = some v := by
  simp [dictSet]

theorem dictSet_other (d : InsDoc) (k k2 : String) (v : Value) (h : k2 ≠ k) :
    dictSet d k v k2 = d k2 := by
  simp [dictSet, h]

/-- Looking up a field after the autoincrement pass: every listed
field name holds the assigned constant, everything else is untouched. -/
theorem foldSet_const_lookup (names : List String) (d : InsDoc) (c : Value) (f : String) :
    (names.foldl (fun d2 n => dictSet d2 n c) d) f =
      if f ∈ names then some c else d f := by
  induction names generalizing d with
  | nil => simp
  | cons n rest ih =>
    rw [List.foldl_cons, ih]
    by_cases hf : f ∈ rest
    · simp [hf]
    · by_cases hn : f = n
      · subst hn
        simp [hf, dictSet_self]
      · simp [hf, hn, dictSet_other d n f c hn]

theorem lookup_eq_none_of_not_mem_keys {ps : List (String × Value)} {f : String}
    (h : f ∉ ps.map Prod.fst) : ps.lookup f = none := by
  induction ps with
  | nil => rfl
  | cons p rest ih =>
    simp only [List.map_cons, List.mem_cons] at h
    push_neg at h
    have : (f == p.1) = false := by
      simp [h.1]
    simp [List.lookup, this, ih h.2]

/-- Looking up a field after the per-row value pass, when no column
name repeats: a pair that is skipped (autoincrement field given the
`DEFAULT` sentinel) leaves the previous binding, any other pair wins. -/
theorem foldInsert_lookup (auto : Option AutoMeta) (ps : List (String × Value))
    (d : InsDoc) (f : String) (huniq : (ps.map Prod.fst).Nodup) :
    (ps.foldl
      (fun d2 fv =>
        match auto with
        | some a =>
          if a.field_names.contains fv.1 && fv.2 == Value.DEFAULT then d2
          else dictSet d2 fv.1 fv.2
        | none => dictSet d2 fv.1 fv.2)
      d) f =
    match ps.lookup f with
    | none => d f
    | some v =>
      match auto with
      | some a =>
        if a.field_names.contains f && v == Value.DEFAULT then d f else some v
      | none => some v := by
  induction ps generalizing d with
  | nil => simp
  | cons p rest ih =>
    obtain ⟨k, v⟩ := p
    simp only [List.map_cons, List.nodup_cons] at huniq
    rw [List.foldl_cons, ih _ huniq.2]
    by_cases hf : f = k
    · subst hf
      have hrest : rest.lookup f = none :=
        lookup_eq_none_of_not_mem_keys huniq.1
      cases auto with
      | some a =>
        by_cases hskip : f ∈ a.field_names ∧ v = Value.DEFAULT
        · simp [List.lookup, hrest, hskip]
        · simp [List.lookup, hrest, hskip, dictSet_self]
      | none =>
        simp [List.lookup, hrest, dictSet_self]
    · have hfk : (f == k) = false := by
        simp [hf]
      cases auto with
      | some a =>
        cases hrl : rest.lookup f with
        | none =>
          by_cases hskip : k ∈ a.field_names ∧ v = Value.DEFAULT
          · simp [List.lookup, hfk, hrl, hskip]
          · simp [List.lookup, hfk, hrl, hskip, dictSet_other d k f v hf]
        | some v2 =>
          by_cases hskip : k ∈ a.field_names ∧ v = Value.DEFAULT
          · simp [List.lookup, hfk, hrl, hskip]
          · simp [List.lookup, hfk, hrl, hskip, dictSet_other d k f v hf]
      | none =>
        cases hrl : rest.lookup f with
        | none => simp [List.lookup, hfk, hrl, dictSet_other d k f v hf]
        | some v2 => simp [List.lookup, hfk, hrl]

/-- Field lookup in the document built for row `i` when the table has
autoincrement metadata and no column name repeats: a field supplied
with a concrete (non-DEFAULT) value holds that value; an
autoincrement field that was supplied the `DEFAULT` sentinel, or not
supplied at all, holds the assigned sequence value. -/
theorem buildRowDoc_lookup (a : AutoMeta) (num : Int) (i : Nat)
    (cols : List String) (val : List Value) (f : String)
    (hc : ((cols.zip val).map Prod.fst).Nodup) :
    buildRowDoc (some a) num i cols val f =
      match (cols.zip val).lookup f with
      | none =>
        if f ∈ a.field_names then some (.int (a.seq - num + (i : Int) + 1)) else none
      | some v =>
        if f ∈ a.field_names ∧ v = Value.DEFAULT then
          some (.int (a.seq - num + (i : Int) + 1))
        else some v := by
  rw [buildRowDoc]
  rw [foldInsert_lookup (some a) (cols.zip val) _ f hc]
  cases hrl : (cols.zip val).lookup f with
  | none =>
    simp only
    rw [foldSet_const_lookup]
    simp [emptyDoc]
  | some v =>
    simp only
    by_cases hskip : f ∈ a.field_names ∧ v = Value.DEFAULT
    · rw [if_pos (by simpa using hskip), if_pos hskip]
      rw [foldSet_const_lookup]
      simp [hskip.1]
    · rw [if_neg (by simpa using hskip), if_neg hskip]

/-- Field lookup in the document built for row `i` when the table has
no autoincrement metadata: every supplied (column, value) pair is
written as given, nothing else is present. -/
theorem buildRowDoc_none_lookup (num : Int) (i : Nat)
    (cols : List String) (val : List Value) (f : String)
    (hc : ((cols.zip val).map Prod.fst).Nodup) :
    buildRowDoc none num i cols val f = (cols.zip val).lookup f := by
  rw [buildRowDoc]
  rw [foldInsert_lookup none (cols.zip val) _ f hc]
  cases hrl : (cols.zip val).lookup f with
  | none => simp [emptyDoc]
  | some v => simp

/-- The `i`-th document of the executed batch. -/
theorem insertExecute_docs_getElem (meta : Option AutoMeta) (cols : List String)
    (vals : List (List Value)) (i : Nat) (val : List Value)
    (hv : vals[i]? = some val) :
    (insertExecute meta cols vals).docs[i]? =
      some (buildRowDoc (findOneAndUpdateIncSeq meta vals.length).2
        (vals.length : Int) i cols val) := by
  simp [insertExecute, List.getElem?_map, List.getElem?_enum, hv]

/-- C3: for an INSERT of N rows into a table whose metadata has an
autoincrement entry with counter `s0`, `InsertQuery.execute` performs
one atomic read-modify-write that increments the counter by N and
reads back the post-increment value S = s0 + N (also recorded as the
last-row id); row i (zero-based) is assigned the sequence value
S - N + i + 1 for every autoincrement field: a row that supplied the
DEFAULT sentinel for such a field (or did not supply it at all)
receives the assigned sequence value, while a row that supplied a
concrete value keeps that value — its sequence slot is consumed (the
counter moved by N regardless) but unused. -/
theorem insert_autoincrement_assignment (s0 : Int) (fns : List String)
    (cols : List String) (vals : List (List Value))
    (hc : cols.Nodup)
    (hlen : ∀ val ∈ vals, cols.length ≤ val.length) :
    (insertExecute (some ⟨s0, fns⟩) cols vals).newMeta =
        some ⟨s0 + (vals.length : Int), fns⟩ ∧
    (insertExecute (some ⟨s0, fns⟩) cols vals).lastRowId =
        .seqVal (s0 + (vals.length : Int)) ∧
    ∀ (i : Nat) (val : List Value), vals[i]? = some val →
      ∃ d : InsDoc, (insertExecute (some ⟨s0, fns⟩) cols vals).docs[i]? = some d ∧
        ∀ f ∈ fns,
          (((cols.zip val).lookup f = none ∨
              (cols.zip val).lookup f = some Value.DEFAULT) →
            d f = some (.int ((s0 + (vals.length : Int)) - (vals.length : Int)
              + (i : Int) + 1))) ∧
          (∀ v, (cols.zip val).lookup f = some v → v ≠ Value.DEFAULT →
            d f = some v) := by
  refine ⟨rfl, rfl, ?_⟩
  intro i val hv
  have hmem : val ∈ vals := List.mem_iff_getElem?.mpr ⟨i, hv⟩
  have hkeys : ((cols.zip val).map Prod.fst).Nodup := by
    rw [List.map_fst_zip cols val (hlen val hmem)]
    exact hc
  refine ⟨buildRowDoc (some ⟨s0 + (vals.length : Int), fns⟩) (vals.length : Int) i cols val,
    insertExecute_docs_getElem (some ⟨s0, fns⟩) cols vals i val hv, ?_⟩
  intro f hf
  rw [buildRowDoc_lookup ⟨s0 + (vals.length : Int), fns⟩ (vals.length : Int) i cols val f hkeys]
  constructor
  · rintro (hl | hl)
    · rw [hl]
      simp [hf]
    · rw [hl]
      simp [hf]
  · intro v hl hne
    rw [hl]
    simp only
    rw [if_neg (by
      rintro ⟨-, hveq⟩
      exact hne hveq)]

/-- Witness for C3: inserting two rows into a table whose counter is
at 5 moves the counter to 7, records 7 as the last-row id, gives the
first row (which supplied DEFAULT for `id`) the sequence value 6, and
keeps the concrete value 99 supplied by the second row. -/
theorem insert_autoincrement_assignment_witness :
    ((["id", "name"] : List String).Nodup ∧
      ∀ val ∈ ([[Value.DEFAULT, Value.str ("a")], [Value.int 99, Value.str ("b")]] :
          List (List Value)),
        (["id", "name"] : List String).length ≤ val.length) ∧
    (insertExecute (some ⟨5, ["id"]⟩) ["id", "name"]
      [[Value.DEFAULT, Value.str ("a")], [Value.int 99, Value.str ("b")]]).newMeta =
        some ⟨7, ["id"]⟩ ∧
    (insertExecute (some ⟨5, ["id"]⟩) ["id", "name"]
      [[Value.DEFAULT, Value.str ("a")], [Value.int 99, Value.str ("b")]]).lastRowId =
        .seqVal 7 ∧
    (∃ d : InsDoc,
      (insertExecute (some ⟨5, ["id"]⟩) ["id", "name"]
        [[Value.DEFAULT, Value.str ("a")], [Value.int 99, Value.str ("b")]]).docs[0]? =
          some d ∧ d ("id") = some (.int 6)) ∧
    (∃ d : InsDoc,
      (insertExecute (some ⟨5, ["id"]⟩) ["id", "name"]
        [[Value.DEFAULT, Value.str ("a")], [Value.int 99, Value.str ("b")]]).docs[1]? =
          some d ∧ d ("id") = some (.int 99)) := by
  have T := insert_autoincrement_assignment 5 ["id"] ["id", "name"]
    [[Value.DEFAULT, Value.str ("a")], [Value.int 99, Value.str ("b")]]
    (by decide) (by decide)
  refine ⟨⟨by decide, by decide⟩, ?_, ?_, ?_, ?_⟩
  · rw [T.1]
    decide
  · rw [T.2.1]
    decide
  · obtain ⟨d, hd, hp⟩ := T.2.2 0 [Value.DEFAULT, Value.str ("a")] rfl
    refine ⟨d, hd, ?_⟩
    rw [(hp ("id") (by decide)).1 (Or.inr (by decide))]
    decide
  · obtain ⟨d, hd, hp⟩ := T.2.2 1 [Value.int 99, Value.str ("b")] rfl
    exact ⟨d, hd, (hp ("id") (by decide)).2 (Value.int 99) (by decide) (by decide)⟩

/-- C10: a value tuple that supplies the DEFAULT marker for a column
that is not registered as an autoincrement field of the target table
(including any column of a table with no autoincrement metadata at
all) produces a document mapping that column to the internal DEFAULT
sentinel object itself — not to NULL and not to a sequence value —
and that document is what goes into the `insert_many` batch. -/
theorem insert_default_sentinel (meta : Option AutoMeta) (cols : List String)
    (vals : List (List Value)) (i : Nat) (val : List Value) (f : String)
    (hc : cols.Nodup) (hlen : cols.length ≤ val.length)
    (hv : vals[i]? = some val)
    (hlook : (cols.zip val).lookup f = some Value.DEFAULT)
    (hnot : ∀ a : AutoMeta, meta = some a → f ∉ a.field_names) :
    ∃ d : InsDoc, (insertExecute meta cols vals).docs[i]? = some d ∧
      d f = some Value.DEFAULT := by
  have hkeys : ((cols.zip val).map Prod.fst).Nodup := by
    rw [List.map_fst_zip cols val hlen]
    exact hc
  cases meta with
  | none =>
    refine ⟨buildRowDoc none (vals.length : Int) i cols val,
      insertExecute_docs_getElem none cols vals i val hv, ?_⟩
    rw [buildRowDoc_none_lookup _ _ _ _ _ hkeys]
    exact hlook
  | some a =>
    have hd := insertExecute_docs_getElem (some a) cols vals i val hv
    have h2 : (findOneAndUpdateIncSeq (some a) (vals.length : Int)).2 =
        some { a with seq := a.seq + (vals.length : Int) } := rfl
    rw [h2] at hd
    refine ⟨_, hd, ?_⟩
    rw [buildRowDoc_lookup _ _ _ _ _ _ hkeys, hlook]
    simp [hnot a rfl]

/-- Witness for C10: inserting DEFAULT into the single column of a
table with no autoincrement metadata stores the sentinel itself. -/
theorem insert_default_sentinel_witness :
    ((["x"] : List String).Nodup ∧
      (["x"] : List String).length ≤ ([Value.DEFAULT] : List Value).length ∧
      ([[Value.DEFAULT]] : List (List Value))[0]? = some [Value.DEFAULT] ∧
      ((["x"] : List String).zip ([Value.DEFAULT] : List Value)).lookup ("x") =
        some Value.DEFAULT) ∧
    ∃ d : InsDoc, (insertExecute none ["x"] [[Value.DEFAULT]]).docs[0]? = some d ∧
      d ("x") = some Value.DEFAULT :=
  ⟨⟨by decide, by decide, rfl, by decide⟩,
   insert_default_sentinel none ["x"] [[Value.DEFAULT]] 0 [Value.DEFAULT] ("x")
     (by decide) (by decide) rfl (by decide) (fun a h => nomatch h)⟩

/-! ## Result alignment (`SelectQuery._align_results`, lines 273-299)

For every output document the compiler walks the selected columns —
the distinct column list when a `DISTINCT` converter is present,
otherwise the selected column list — in their original left-to-right
order.  An entry that is a `SQLToken` resolves through its table: a
same-table column reads `doc[column]`, a foreign-table column reads
`doc[table][column]`; both lookups sit in a `try/except KeyError`
that raises `MigrationError(column)` when `enforce_schema` is set and
appends `None` otherwise.  Any other entry (an aggregate/computed
column) reads `doc[selected.alias]` with *no* exception handling, so
a missing alias key raises an uncaught `KeyError`. -/

/-- A value inside a result document: either a scalar or (for joined
tables) a nested sub-document. -/
inductive BsonVal where
  | prim (v : Value)
  | subdoc (fields : List (String × BsonVal))

/-- A result document returned by the store. -/
abbrev ResultDoc : Type := List (String × BsonVal)

/-- One entry of a column converter's `sql_tokens` list: a `SQLToken`
carrying its table and column, or a computed/aggregate entry carrying
its alias. -/
inductive Selected where
  | tok (table column : String)
  | computed (aliasName : String)

/-- The ways `_align_results` can abort: a `MigrationError(column)`
under schema enforcement, an uncaught `KeyError` from the
computed-column branch, or an uncaught `TypeError` when `doc[table]`
exists but is not a sub-document. -/
inductive AlignErr where
  | migration (column : String)
  | keyError (key : String)
  | typeError

/-- Resolution of one selected entry against one document — the loop
body of `_align_results`. -/
def alignOne (enforce : Bool) (leftTable : String) (doc : ResultDoc) :
    Selected → Except AlignErr BsonVal
  | .tok t c =>
    if t = leftTable then
      match doc.lookup c with
      | some v => .ok v
      | none => if enforce then .error (.migration c) else .ok (.prim .null)
    else
      match doc.lookup t with
      | some (.subdoc sub) =>
        match sub.lookup c with
        | some v => .ok v
        | none => if enforce then .error (.migration c) else .ok (.prim .null)
      | some (.prim _) => .error .typeError
      | none => if enforce then .error (.migration c) else .ok (.prim .null)
  | .computed a =>
    match doc.lookup a with
    | some v => .ok v
    | none => .error (.keyError a)

/-- The append loop of `_align_results`: results in original order,
aborting at the first raised error. -/
def alignLoop (enforce : Bool) (leftTable : String) (doc : ResultDoc) :
    List Selected → Except AlignErr (List BsonVal)
  | [] => .ok []
  | s :: rest =>
    match alignOne enforce leftTable doc s with
    | .error e => .error e
    | .ok v =>
      match alignLoop enforce leftTable doc rest with
      | .error e => .error e
      | .ok vs => .ok (v :: vs)

/-- The effective column list of `_align_results`:
`self.distinct.sql_tokens` when a `DISTINCT` converter is present,
otherwise `self.selected_columns.sql_tokens`. -/
def effectiveToks (distinctToks : Option (List Selected))
    (selectedToks : List Selected) : List Selected :=
  match distinctToks with
  | some ts => ts
  | none => selectedToks

/-- `SelectQuery._align_results`: walk the effective column list in
its original order. -/
def alignResults (enforce : Bool) (leftTable : String)
    (distinctToks : Option (List Selected)) (selectedToks : List Selected)
    (doc : ResultDoc) : Except AlignErr (List BsonVal) :=
  alignLoop enforce leftTable doc (effectiveToks distinctToks selectedToks)

/-- Counterexample for C5 as stated: with schema enforcement
disabled, a selected computed column whose alias is absent from the
document does not yield NULL at that position — the lookup raises an
uncaught `KeyError` (and under enforcement it is still a `KeyError`,
not a Migration failure). -/
theorem align_missing_computed_counterexample :
    alignResults false ("t") none [Selected.computed ("a")] [] =
      .error (.keyError ("a")) ∧
    alignResults false ("t") none [Selected.computed ("a")] [] ≠
      .ok [BsonVal.prim .null] ∧
    alignResults true ("t") none [Selected.computed ("a")] [] =
      .error (.keyError ("a")) := by
  refine ⟨rfl, ?_, rfl⟩
  intro h
  have h2 : (Except.error (AlignErr.keyError ("a")) : Except AlignErr (List BsonVal)) =
      Except.ok [BsonVal.prim Value.null] := h
  exact Except.noConfusion h2

/-- Per-column rule of the amended claim: a column resolved through a
table (same-table or, for a well-formed document, foreign-table under
a join) yields the stored value, and when the resolved field is
absent it yields NULL with enforcement disabled and a Migration
failure naming the column with enforcement enabled; a computed column
is fetched by its alias and a missing alias is a key-lookup failure
regardless of enforcement. -/
def resolveColumnSpec (enforce : Bool) (leftTable : String) (doc : ResultDoc) :
    Selected → Except AlignErr BsonVal
  | .tok t c =>
    match (if t = leftTable then doc.lookup c
           else (doc.lookup t).bind
             (fun tv => match tv with | .subdoc sub => sub.lookup c | _ => none)) with
    | some v => .ok v
    | none => if enforce then .error (.migration c) else .ok (.prim Value.null)
  | .computed a =>
    match doc.lookup a with
    | some v => .ok v
    | none => .error (.keyError a)

/-- The amended claim's whole-row form: the effective column list
(distinct order under DISTINCT, else selected order) resolved
left-to-right, stopping at the first failure. -/
def alignSpec (enforce : Bool) (leftTable : String) (doc : ResultDoc) :
    List Selected → Except AlignErr (List BsonVal)
  | [] => .ok []
  | s :: rest =>
    match resolveColumnSpec enforce leftTable doc s with
    | .error e => .error e
    | .ok v =>
      match alignSpec enforce leftTable doc rest with
      | .error e => .error e
      | .ok vs => .ok (v :: vs)

/-- Decides that a selected entry does not hit the unmodelled Python
`TypeError` path: any foreign-table entry whose table key is present
in the document holds a sub-document there. -/
def foreignOk (leftTable : String) (doc : ResultDoc) : Selected → Bool
  | .tok t _ =>
    t == leftTable ||
      (match doc.lookup t with
       | some (.prim _) => false
       | _ => true)
  | .computed _ => true

/-- C5 (amended): on documents whose foreign-table entries are
sub-documents, `_align_results` emits the present fields in the
original left-to-right order of the effective column list (the
distinct list under DISTINCT), maps a missing table-resolved field to
NULL when schema enforcement is disabled and to a Migration failure
naming the column when it is enabled, and fails a computed column's
missing alias with a key-lookup error regardless of enforcement. -/
theorem align_results_amended (enforce : Bool) (leftTable : String)
    (distinctToks : Option (List Selected)) (selectedToks : List Selected)
    (doc : ResultDoc)
    (hwf : ∀ s ∈ effectiveToks distinctToks selectedToks,
      foreignOk leftTable doc s = true) :
    alignResults enforce leftTable distinctToks selectedToks doc =
      alignSpec enforce leftTable doc (effectiveToks distinctToks selectedToks) := by
  have main : ∀ toks : List Selected, (∀ s ∈ toks, foreignOk leftTable doc s = true) →
      alignLoop enforce leftTable doc toks = alignSpec enforce leftTable doc toks := by
    intro toks hwf2
    induction toks with
    | nil => rfl
    | cons s rest ih =>
      have hs : foreignOk leftTable doc s = true := hwf2 s (by simp)
      have hone : alignOne enforce leftTable doc s =
          resolveColumnSpec enforce leftTable doc s := by
        cases s with
        | computed a => rfl
        | tok t c =>
          by_cases ht : t = leftTable
          · simp [alignOne, resolveColumnSpec, ht]
          · simp only [foreignOk, ht] at hs
            cases hl : doc.lookup t with
            | none => simp [alignOne, resolveColumnSpec, ht, hl]
            | some tv =>
              cases tv with
              | prim v =>
                rw [hl] at hs
                simp [ht] at hs
              | subdoc sub => simp [alignOne, resolveColumnSpec, ht, hl]
      rw [alignLoop, alignSpec, hone,
        ih (fun x hx => hwf2 x (by simp [hx]))]
  exact main _ hwf

/-- Witness for the amended C5: a document holding `b` but missing
`a` aligns `SELECT a, b` to (NULL, value of b) without enforcement,
and to `MigrationError('a')` with enforcement. -/
theorem align_results_amended_witness :
    (∀ s ∈ effectiveToks none [Selected.tok ("t") ("a"), Selected.tok ("t") ("b")],
      foreignOk ("t") [(("b"), BsonVal.prim (Value.int 2))] s = true) ∧
    alignResults false ("t") none [Selected.tok ("t") ("a"), Selected.tok ("t") ("b")]
        [(("b"), BsonVal.prim (Value.int 2))] =
      alignSpec false ("t") [(("b"), BsonVal.prim (Value.int 2))]
        (effectiveToks none [Selected.tok ("t") ("a"), Selected.tok ("t") ("b")]) ∧
    alignResults false ("t") none [Selected.tok ("t") ("a"), Selected.tok ("t") ("b")]
        [(("b"), BsonVal.prim (Value.int 2))] =
      .ok [BsonVal.prim Value.null, BsonVal.prim (Value.int 2)] ∧
    alignResults true ("t") none [Selected.tok ("t") ("a"), Selected.tok ("t") ("b")]
        [(("b"), BsonVal.prim (Value.int 2))] =
      .error (.migration ("a")) :=
  ⟨fun s hs => by
      fin_cases hs <;> rfl,
   align_results_amended false ("t") none
     [Selected.tok ("t") ("a"), Selected.tok ("t") ("b")]
     [(("b"), BsonVal.prim (Value.int 2))]
     (fun s hs => by
       fin_cases hs <;> rfl),
   rfl, rfl⟩

/-! ## The dispatcher (`Query`, lines 773-1024)

`Query.parse` (lines 843-886) rejects multi-statement input, keys the
statement kind into `FUNC_MAP`, and normalises what the handler
raises: a `MigrationError` passes through unwrapped, an
`OperationFailure` becomes an `SQLDecodeError` carrying the SQL, the
parameters and the store's `e.details`, any other exception becomes
an `SQLDecodeError` carrying the SQL and the parameters only; a kind
absent from `FUNC_MAP` raises `NotImplementedError` outside that
try-block.  `Query.__iter__` (lines 810-837) applies the analogous
normalisation during result iteration, catching any `PyMongoError`
(with its detail) rather than only `OperationFailure`.

Exceptions are embedded with the distinctions the source draws:
`operationFailure` is pymongo's `OperationFailure` (the store error
kind carrying a machine-readable `details` payload), `pymongoOther`
is any other `PyMongoError` subclass (e.g. `CollectionInvalid`),
`decode` is `SQLDecodeError` with the data its message carries. -/

/-- The exception kinds the dispatcher distinguishes. -/
inductive PyErr where
  | migration (msg : String)
  | operationFailure (details : String)
  | pymongoOther (details : String)
  | decode (sql : String) (params : Option (List Value)) (storeDetails : Option String)
  | notImplemented (msg : String)
  | other (msg : String)
  deriving DecidableEq, Repr

/-- A store operation issued while handling a statement. -/
inductive Effect where
  | createCollection (name : String)
  | createIndex (collection field : String)
  | registerSchema (table : String)
  | dropDatabase (name : String)
  | dropCollection (name : String)
  | dropIndex (collection index : String)
  deriving DecidableEq, Repr

/-- What running a statement handler produced: a normal return or a
raised exception, together with the store operations already issued. -/
inductive HOutcome where
  | done
  | raised (e : PyErr)
  deriving DecidableEq, Repr

/-- The keys of `Query.FUNC_MAP` (lines 1016-1024). -/
def FUNC_MAP_keys : List String :=
  [("SELECT"), ("UPDATE"), ("INSERT"), ("DELETE"), ("CREATE"), ("DROP"), ("ALTER")]

/-- `Query.parse` (lines 843-886) over the statement list returned by
the external parser, with the chosen handler's behaviour given as
`run` (the effects it issued before returning or raising).  Multi
statement input raises `SQLDecodeError(self._sql)` before any
handler is looked up or run; an unknown statement kind raises
`NotImplementedError` outside the normalising try-block; a handler
exception is normalised as the source's except-clauses do. -/
def dispatchStatements (sql : String) (params : List Value)
    (sts : List String) (run : String → List Effect × HOutcome) :
    List Effect × Except PyErr Unit :=
  if sts.length > 1 then ([], .error (.decode sql none none))
  else
    match sts with
    | [] => ([], .error (.other ("IndexError")))
    | kind :: _ =>
      if kind ∈ FUNC_MAP_keys then
        match run kind with
        | (effs, .done) => (effs, .ok ())
        | (effs, .raised (.migration m)) => (effs, .error (.migration m))
        | (effs, .raised (.operationFailure d)) =>
          (effs, .error (.decode sql (some params) (some d)))
        | (effs, .raised _) => (effs, .error (.decode sql (some params) none))
      else
        ([], .error (.notImplemented (kind ++ (" command not implemented for SQL ") ++ sql)))

/-- The error normalisation of `Query.__iter__` (lines 810-837):
`MigrationError` passes through, any `PyMongoError` is wrapped with
the store detail attached, anything else is wrapped without it. -/
def iterNormalize (sql : String) (params : List Value) : PyErr → PyErr
  | .migration m => .migration m
  | .operationFailure d => .decode sql (some params) (some d)
  | .pymongoOther d => .decode sql (some params) (some d)
  | _ => .decode sql (some params) none

/-- C6: input that parses to more than one statement is rejected with
a decode failure before any compiler is built or any store operation
is issued — the effect trace is empty regardless of the handlers. -/
theorem multi_statement_decode_failure (sql : String) (params : List Value)
    (sts : List String) (run : String → List Effect × HOutcome)
    (h : sts.length > 1) :
    dispatchStatements sql params sts run = ([], .error (.decode sql none none)) := by
  unfold dispatchStatements
  rw [if_pos h]

/-- Witness for C6 at two concrete statements. -/
theorem multi_statement_decode_failure_witness :
    ([("SELECT"), ("DELETE")] : List String).length > 1 ∧
    dispatchStatements ("SELECT * FROM a; DELETE FROM a") []
        [("SELECT"), ("DELETE")]
        (fun _ => ([.dropCollection ("a")], .done)) =
      ([], .error (.decode ("SELECT * FROM a; DELETE FROM a") none none)) :=
  ⟨by decide,
   multi_statement_decode_failure ("SELECT * FROM a; DELETE FROM a") []
     [("SELECT"), ("DELETE")] (fun _ => ([.dropCollection ("a")], .done)) (by decide)⟩

/-! ### The CREATE TABLE handler (`Query._create`, lines 897-917)

Enough of `_create` to ground the error-normalisation counterexample:
when the metadata collection is already cached the handler goes
straight to `create_collection(table)`; if the collection already
exists the driver raises `CollectionInvalid` — a `PyMongoError` that
is not an `OperationFailure` — which `_create` re-raises when
`enforce_schema` is set and swallows (returning early) otherwise.
The column-metadata registration that follows a successful creation
(lines 919-968) is abstracted as a single `registerSchema` effect;
none of the claims depends on its internals. -/

/-- The connection state `_create` consults. -/
structure CreateCtx where
  enforce_schema : Bool
  cached_collections : List String
  existing : List String
  deriving DecidableEq, Repr

/-- The `CollectionInvalid` exception raised by
`create_collection` on an existing collection. -/
def collectionInvalidErr (table : String) : PyErr :=
  .pymongoOther (("collection ") ++ table ++ (" already exists"))

/-- `Query._create` on a `CREATE TABLE` statement. -/
def createTableRun (ctx : CreateCtx) (table : String) : List Effect × HOutcome :=
  if ("__schema__") ∉ ctx.cached_collections ∧ ("__schema__") ∈ ctx.existing then
    ([], .raised (collectionInvalidErr ("__schema__")))
  else
    let pre : List Effect :=
      if ("__schema__") ∈ ctx.cached_collections then []
      else [.createCollection ("__schema__"), .createIndex ("__schema__") ("name"),
            .createIndex ("__schema__") ("auto")]
    if table ∈ ctx.existing then
      if ctx.enforce_schema then (pre, .raised (collectionInvalidErr table))
      else (pre, .done)
    else
      (pre ++ [.createCollection table, .registerSchema table], .done)

/-- Counterexample for C7 as stated: a failure that comes from the
store during compilation/execution but is not an `OperationFailure`
— here the driver's `CollectionInvalid`, re-raised by `_create` under
schema enforcement — is wrapped into a decode error WITHOUT the
store's native error detail (the `storeDetails` slot is `none`),
because `Query.parse` only catches `OperationFailure` specially. -/
theorem store_error_without_detail_counterexample :
    (createTableRun ⟨true, [("__schema__")], [("tbl")]⟩ ("tbl")).2 =
      .raised (.pymongoOther (("collection ") ++ ("tbl") ++ (" already exists"))) ∧
    dispatchStatements ("CREATE TABLE tbl (i int)") [] [("CREATE")]
        (fun _ => createTableRun ⟨true, [("__schema__")], [("tbl")]⟩ ("tbl")) =
      ([], .error (.decode ("CREATE TABLE tbl (i int)") (some []) none)) :=
  ⟨rfl, rfl⟩

/-- C7 (amended): every failure a handler raises during compilation
or execution — except a Migration failure, which passes through
unwrapped — is re-raised as the single decode-error type carrying the
original SQL and the parameter list, with the store's native error
detail attached exactly when the failure is a store
operation-failure; a store failure of another kind (e.g. invalid
collection) is wrapped without the native detail.  During result
iteration any store-driver failure gets its detail attached and any
other non-Migration failure is wrapped bare.  A statement kind with
no registered compiler raises a distinct unimplemented-command
failure instead of a decode failure, without running any handler. -/
theorem dispatch_error_normalization (sql : String) (params : List Value)
    (kind : String) (run : String → List Effect × HOutcome)
    (effs : List Effect) (e : PyErr)
    (hkind : kind ∈ FUNC_MAP_keys)
    (hrun : run kind = (effs, .raised e)) :
    (∀ m, e = .migration m →
      dispatchStatements sql params [kind] run = (effs, .error (.migration m))) ∧
    (∀ d, e = .operationFailure d →
      dispatchStatements sql params [kind] run =
        (effs, .error (.decode sql (some params) (some d)))) ∧
    ((∀ m, e ≠ .migration m) → (∀ d, e ≠ .operationFailure d) →
      dispatchStatements sql params [kind] run =
        (effs, .error (.decode sql (some params) none))) ∧
    (∀ kind2, kind2 ∉ FUNC_MAP_keys →
      dispatchStatements sql params [kind2] run =
        ([], .error (.notImplemented (kind2 ++ (" command not implemented for SQL ") ++ sql)))) ∧
    (∀ m, iterNormalize sql params (.migration m) = .migration m) ∧
    (∀ d, iterNormalize sql params (.operationFailure d) =
      .decode sql (some params) (some d)) ∧
    (∀ d, iterNormalize sql params (.pymongoOther d) =
      .decode sql (some params) (some d)) ∧
    (∀ m, iterNormalize sql params (.other m) = .decode sql (some params) none) := by
  refine ⟨?_, ?_, ?_, ?_, fun m => rfl, fun d => rfl, fun d => rfl, fun m => rfl⟩
  · intro m hm
    subst hm
    simp [dispatchStatements, hkind, hrun]
  · intro d hd
    subst hd
    simp [dispatchStatements, hkind, hrun]
  · intro hm hd
    cases e with
    | migration m => exact absurd rfl (hm m)
    | operationFailure d => exact absurd rfl (hd d)
    | pymongoOther d => simp [dispatchStatements, hkind, hrun]
    | decode s p sd => simp [dispatchStatements, hkind, hrun]
    | notImplemented m => simp [dispatchStatements, hkind, hrun]
    | other m => simp [dispatchStatements, hkind, hrun]
  · intro kind2 hk2
    simp [dispatchStatements, hk2]

/-- Witness for the amended C7: a handler raising a plain exception
has it wrapped with SQL and params but no store detail. -/
theorem dispatch_error_normalization_witness :
    (("DELETE") ∈ FUNC_MAP_keys) ∧
    ((fun _ => ([], HOutcome.raised (.other ("KeyError")))) ("DELETE") =
      (([] : List Effect), HOutcome.raised (.other ("KeyError")))) ∧
    dispatchStatements ("DELETE FROM t") [Value.int 1] [("DELETE")]
        (fun _ => ([], HOutcome.raised (.other ("KeyError")))) =
      ([], .error (.decode ("DELETE FROM t") (some [Value.int 1]) none)) :=
  ⟨by decide, rfl,
   ((dispatch_error_normalization ("DELETE FROM t") [Value.int 1] ("DELETE")
      (fun _ => ([], HOutcome.raised (.other ("KeyError")))) [] (.other ("KeyError"))
      (by decide) rfl).2.2.1
     (fun m h => by exact PyErr.noConfusion h)
     (fun d h => by exact PyErr.noConfusion h))⟩

/-! ### The DROP handler (`Query._drop`, lines 975-996)

`_drop` reads the keyword after `DROP`: `DATABASE` and `TABLE` read
the following name and call the matching store removal.  The `INDEX`
branch (lines 986-994) begins with
`tok_id, tok = sm.token_next(tok_id)` — but no `tok_id` local has been
assigned in `_drop` at that point, so Python raises
`UnboundLocalError` before the index name is ever read; the
subsequent code (reading the index name, requiring the `ON` keyword,
raising `SQLDecodeError` when it is absent, and calling
`drop_index`) is unreachable.  The embedding renders the branch as
that error. -/

/-- A parsed `DROP` statement: the data the token stream would offer
the handler. -/
inductive DropStmt where
  | database (name : String)
  | table (name : String)
  | index (indexName : String) (onTable : Option String)
  | unknown (repr : String)
  deriving DecidableEq, Repr

/-- `Query._drop`: the effects issued and the outcome. -/
def dropRun : DropStmt → List Effect × Except PyErr Unit
  | .database n => ([.dropDatabase n], .ok ())
  | .table n => ([.dropCollection n], .ok ())
  | .index _ _ =>
    ([], .error (.other ("UnboundLocalError: local variable tok_id referenced before assignment")))
  | .unknown r => ([], .error (.decode (("statement:") ++ r) none none))

/-- C8 (code bug): every `DROP INDEX` statement — whether or not it
names the owning table with `ON` — raises `UnboundLocalError` at the
first line of the `INDEX` branch and issues no store operation; the
index is never dropped and the intended `SQLDecodeError` for a
missing `ON` is unreachable.  Evaluated at the failing input
`DROP INDEX idx ON tbl`. -/
theorem drop_index_unbound_local :
    (∀ (i : String) (t : Option String),
      dropRun (.index i t) =
        ([], .error (.other ("UnboundLocalError: local variable tok_id referenced before assignment")))) ∧
    dropRun (.index ("idx") (some ("tbl"))) =
      ([], .error (.other ("UnboundLocalError: local variable tok_id referenced before assignment"))) ∧
    (dropRun (.index ("idx") (some ("tbl")))).1 = [] ∧
    dropRun (.database ("db1")) = ([.dropDatabase ("db1")], .ok ()) ∧
    dropRun (.table ("tbl")) = ([.dropCollection ("tbl")], .ok ()) :=
  ⟨fun _ _ => rfl, rfl, rfl, rfl, rfl⟩

/-! ## Cursor cleanup (`Query.close`, lines 796-798)

`close` runs `if self._query and self._query._cursor:
self._query._cursor.close()`.  `self._query` is `None` when the
handler returned no compiler (the CREATE/DROP/ALTER paths return
`None`); every compiler sets `self._cursor = None` in
`BaseQuery.__init__` (line 78) and a `SelectQuery` only replaces it
once iteration or counting starts.  The driver's `close()` marks the
cursor closed and is idempotent. -/

/-- A store cursor as the cleanup logic sees it. -/
structure DriverCursor where
  closed : Bool
  deriving DecidableEq, Repr

/-- The driver's `cursor.close()`. -/
def cursorClose (c : DriverCursor) : DriverCursor :=
  { c with closed := true }

/-- A compiler instance's cursor slot (`BaseQuery._cursor`). -/
structure CompilerState where
  cursor : Option DriverCursor
  deriving DecidableEq, Repr

/-- The dispatcher's compiler slot (`Query._query`). -/
structure QueryState where
  query : Option CompilerState
  deriving DecidableEq, Repr

/-- `Query.close`: a total function — no lookup in it can fail, so it
never raises. -/
def queryClose (q : QueryState) : QueryState :=
  match q.query with
  | some comp =>
    match comp.cursor with
    | some cur => { query := some { cursor := some (cursorClose cur) } }
    | none => q
  | none => q

/-- C9: `close` is idempotent and safe in every state: before parsing
produced a compiler (no query), before iteration started (no
cursor), after completion, or repeatedly — each call either closes
the open store cursor or is a no-op, and a second call changes
nothing.  Totality of `queryClose` embeds that it never raises. -/
theorem query_close_safe (q : QueryState) :
    queryClose (queryClose q) = queryClose q ∧
    (q.query = none → queryClose q = q) ∧
    (∀ comp, q.query = some comp → comp.cursor = none → queryClose q = q) ∧
    (∀ comp cur, q.query = some comp → comp.cursor = some cur →
      queryClose q = ⟨some ⟨some ⟨true⟩⟩⟩) := by
  obtain ⟨qq⟩ := q
  refine ⟨?_, ?_, ?_, ?_⟩
  · cases qq with
    | none => rfl
    | some comp =>
      cases hc : comp.cursor with
      | none => simp [queryClose, hc]
      | some cur => simp [queryClose, hc, cursorClose]
  · intro h
    simp only at h
    subst h
    rfl
  · intro comp h hc
    simp only at h
    subst h
    simp [queryClose, hc]
  · intro comp cur h hc
    simp only at h
    subst h
    simp [queryClose, hc, cursorClose]

/-- Witness for C9 at concrete states: a query with an open cursor, a
query that never produced a cursor, and a dispatcher that built no
compiler. -/
theorem query_close_safe_witness :
    (queryClose (queryClose ⟨some ⟨some ⟨false⟩⟩⟩) = queryClose ⟨some ⟨some ⟨false⟩⟩⟩ ∧
      (⟨some ⟨some ⟨false⟩⟩⟩ : QueryState).query = some ⟨some ⟨false⟩⟩ ∧
      queryClose ⟨some ⟨some ⟨false⟩⟩⟩ = ⟨some ⟨some ⟨true⟩⟩⟩) ∧
    ((⟨none⟩ : QueryState).query = none ∧ queryClose ⟨none⟩ = ⟨none⟩) ∧
    ((⟨some ⟨none⟩⟩ : QueryState).query = some ⟨none⟩ ∧
      queryClose ⟨some ⟨none⟩⟩ = ⟨some ⟨none⟩⟩) :=
  ⟨⟨(query_close_safe ⟨some ⟨some ⟨false⟩⟩⟩).1, rfl,
    (query_close_safe ⟨some ⟨some ⟨false⟩⟩⟩).2.2.2 ⟨some ⟨false⟩⟩ ⟨false⟩ rfl rfl⟩,
   ⟨rfl, (query_close_safe ⟨none⟩).2.1 rfl⟩,
   ⟨rfl, (query_close_safe ⟨some ⟨none⟩⟩).2.2.1 ⟨none⟩ rfl rfl⟩⟩

end Djongo
